import Mathlib

/-
  Verification of the data-correlation and classification engine of a
  React/Leaflet choropleth application (source: src/src/App.jsx).

  The JavaScript source is shallowly embedded below.  JS numbers are
  modelled as `JSNum` (a rational for every finite value, plus NaN and the
  two infinities); JS strings as `String`; property bags as ordered
  association lists; JS `Map` (last-write-wins `set`, exact-key `get`) as
  fold-based lookups.  Unicode corner cases of `String.prototype.trim` and
  the hexadecimal/octal/binary forms accepted by `Number()` are outside the
  model (the application's data never exercises them); the decimal and
  `Infinity` forms, and the empty string, are modelled faithfully.
-/

/-! ## JS string primitives -/

/-- Whitespace recognised by `String.prototype.trim` (ASCII part plus
NBSP and BOM; exotic Unicode space separators are outside the model). -/
def jsWS (c : Char) : Bool :=
  c == ' ' || c == '\t' || c == '\n' || c == '\r' ||
  c == '\x0b' || c == '\x0c' || c == '\u00A0' || c == '\uFEFF'

/-- `s.trim()` : drop leading and trailing JS whitespace. -/
def jsTrim (s : String) : String :=
  String.mk (((s.toList.dropWhile jsWS).reverse.dropWhile jsWS).reverse)

/-- Helper for `text.split(/\r?\n/)` : the accumulator holds the current
line reversed; a `'\n'` terminates a line, consuming one `'\r'` found
immediately before it. -/
def splitLinesAux : List Char → List Char → List String
  | [], acc => [String.mk acc.reverse]
  | '\n' :: rest, acc =>
      String.mk (match acc with | '\r' :: t => t.reverse | t => t.reverse)
        :: splitLinesAux rest []
  | c :: rest, acc => splitLinesAux rest (c :: acc)

/-- `text.split(/\r?\n/)` as used by the CSV handler. -/
def splitLinesJS (s : String) : List String :=
  splitLinesAux s.toList []

/-- Helper for `s.split(sep)` with a one-character separator. -/
def splitCharAux (sep : Char) : List Char → List Char → List String
  | [], acc => [String.mk acc.reverse]
  | c :: rest, acc =>
      if c = sep then String.mk acc.reverse :: splitCharAux sep rest []
      else splitCharAux sep rest (c :: acc)

/-- `s.split(',')` : split on every comma (`""` yields `[""]`). -/
def jsSplit (sep : Char) (s : String) : List String :=
  splitCharAux sep s.toList []

/-! ## JS numbers -/

/-- A JavaScript number: a finite value (modelled as a rational), NaN, or
an infinity. -/
inductive JSNum where
  | fin (q : ℚ)
  | nan
  | inf
  | neginf
  deriving DecidableEq, Repr

/-- `Number.isFinite`. -/
def JSNum.isFinite : JSNum → Bool
  | .fin _ => true
  | _ => false

/-- The finite value, when there is one. -/
def JSNum.toFinite? : JSNum → Option ℚ
  | .fin q => some q
  | _ => none

/-- Digit run to a natural number (`none` when empty or non-digits). -/
def digitsVal? (cs : List Char) : Option ℕ :=
  if cs ≠ [] ∧ cs.all Char.isDigit then
    some (cs.foldl (fun n c => 10 * n + (c.toNat - 48)) 0)
  else none

/-- Mantissa of a decimal literal: `digits`, `digits.digits`, `digits.`,
or `.digits` (a bare `.` or any non-digit is rejected, giving NaN). -/
def parseMant (cs : List Char) : Option ℚ :=
  match cs.span (fun c => c != '.') with
  | (ip, []) => (digitsVal? ip).map (fun n => (n : ℚ))
  | (ip, _ :: fp) =>
      if ip = [] ∧ fp = [] then none
      else if ip.all Char.isDigit ∧ fp.all Char.isDigit then
        some ((ip.foldl (fun n c => 10 * n + (c.toNat - 48)) 0 : ℕ) +
          (fp.foldl (fun n c => 10 * n + (c.toNat - 48)) 0 : ℕ) / (10 : ℚ) ^ fp.length)
      else none

/-- Exponent part after `e`/`E`: optional sign then a nonempty digit run. -/
def parseExpDigits (cs : List Char) : Option ℤ :=
  match cs with
  | '-' :: t => (digitsVal? t).map (fun n => -(n : ℤ))
  | '+' :: t => (digitsVal? t).map (fun n => (n : ℤ))
  | t => (digitsVal? t).map (fun n => (n : ℤ))

/-- Signless body of a decimal numeric literal, with optional exponent. -/
def parseDecCore (body : List Char) : Option ℚ :=
  match body.span (fun c => c != 'e' && c != 'E') with
  | (mant, []) => parseMant mant
  | (mant, _ :: etail) =>
      match parseMant mant, parseExpDigits etail with
      | some m, some e => some (m * (10 : ℚ) ^ e)
      | _, _ => none

/-- `Number(s)` on an already-trimmed string (decimal / `Infinity` subset). -/
def jsStrCore (cs : List Char) : JSNum :=
  match cs with
  | [] => .fin 0
  | _ =>
      let signBody : Bool × List Char :=
        match cs with
        | '-' :: t => (true, t)
        | '+' :: t => (false, t)
        | t => (false, t)
      if signBody.2 = "Infinity".toList then
        if signBody.1 then .neginf else .inf
      else
        match parseDecCore signBody.2 with
        | some q => .fin (if signBody.1 then -q else q)
        | none => .nan

/-- `Number(s)` for a string `s` (ToNumber trims whitespace first). -/
def jsNumber (s : String) : JSNum :=
  jsStrCore (jsTrim s).toList

/-- `Number(cell)` where the cell may be `undefined`
(an out-of-range array read); `Number(undefined)` is NaN. -/
def jsNumCell : Option String → JSNum
  | none => .nan
  | some s => jsNumber s

/-! ## JS property values -/

/-- A primitive property value (string or finite number); this covers every
value the application stores in a feature's property bag. -/
inductive JSVal where
  | str (s : String)
  | num (q : ℚ)
  deriving DecidableEq, Repr

/-- JS truthiness of a property value (`""` and `0` are falsy). -/
def jsTruthy : JSVal → Bool
  | .str s => s != ""
  | .num q => q != 0

/-- `a || b` on two optional strings, where `undefined` and `""` are falsy. -/
def jsOrS (a b : Option String) : Option String :=
  match a with
  | some s => if s = "" then b else some s
  | none => b

/-- `a || d` : a property read falling back to a default. -/
def jsOrVal (a : Option JSVal) (d : JSVal) : JSVal :=
  match a with
  | some v => if jsTruthy v then v else d
  | none => d

/-- `obj[k]` on a property bag (first entry with the key; keys are unique
by construction). -/
def getProp : List (String × JSVal) → String → Option JSVal
  | [], _ => none
  | p :: ps, k => if p.1 = k then some p.2 else getProp ps k

/-- `obj[k] = v` : replace in place when the key exists, else append. -/
def setProp : List (String × JSVal) → String → JSVal → List (String × JSVal)
  | [], k, v => [(k, v)]
  | p :: ps, k, v => if p.1 = k then (k, v) :: ps else p :: setProp ps k v

/-- A property read expected to hold a string (the id/name keys; a numeric
value there would make the JS original throw on `.trim()`, outside the
model's scope). -/
def propStr (l : List (String × JSVal)) (k : String) : Option String :=
  match getProp l k with
  | some (.str s) => some s
  | _ => none

/-! ## Classifier (`getColorForValue`, App.jsx lines 14-34) -/

/-- `Math.round` : ties round toward +infinity. -/
def jround (q : ℚ) : ℤ := ⌊q + 1 / 2⌋

/-- The CSS string `rgb(r, g, b)` returned by the classifier. -/
def rgbStr (r g b : ℤ) : String :=
  "rgb(" ++ toString r ++ ", " ++ toString g ++ ", " ++ toString b ++ ")"

/-- `getColorForValue(value, min, max)`.  The first match arm is the
source's guard `!isFinite(value) || !isFinite(min) || !isFinite(max) ||
min === max` (with three finite arguments `===` is equality on the
rationals; with a non-finite argument the guard already fired). -/
def getColorForValue : JSNum → JSNum → JSNum → String
  | .fin v, .fin mn, .fin mx =>
      if mn = mx then "#7c3aed"
      else
        let t : ℚ := (v - mn) / (mx - mn)
        rgbStr (jround (237 + ((88 : ℚ) - 237) * t))
          (jround (233 + ((28 : ℚ) - 233) * t))
          (jround (254 + ((135 : ℚ) - 254) * t))
  | _, _, _ => "#7c3aed"

/-! ## Tabular dataset (`handleCsvUpload`, App.jsx lines 262-305) -/

/-- One parsed CSV row (`{id, revenue, cost}`); `id` is `none` when the
line had no cell at the id column's index. -/
structure Row where
  id : Option String
  revenue : JSNum
  cost : JSNum
  deriving DecidableEq, Repr

/-- The two selectable metrics. -/
inductive Metric where
  | revenue
  | cost
  deriving DecidableEq, Repr

/-- `row[selectedMetric]`. -/
def Row.get (r : Row) : Metric → JSNum
  | .revenue => r.revenue
  | .cost => r.cost

/-- The parse failures the CSV handler reports. -/
inductive CsvErr where
  | emptyTable
  | missingColumns
  deriving DecidableEq, Repr

/-- One data line: split on commas, trim each cell, read the three columns
at their discovered header indices. -/
def parseRow (iI rI cI : ℕ) (line : String) : Row :=
  let cols := (jsSplit ',' line).map jsTrim
  { id := cols[iI]?
    revenue := jsNumCell cols[rI]?
    cost := jsNumCell cols[cI]? }

/-- The parsing core of `handleCsvUpload`: trim the text, split into
lines, require at least two, locate the `id`/`revenue`/`cost` header
columns, and map every remaining line to a `Row`. -/
def parseCsv (text : String) : Except CsvErr (List Row) :=
  match splitLinesJS (jsTrim text) with
  | l0 :: l1 :: rest =>
      let header := (jsSplit ',' l0).map jsTrim
      match header.findIdx? (fun h => h == "id"),
            header.findIdx? (fun h => h == "revenue"),
            header.findIdx? (fun h => h == "cost") with
      | some iI, some rI, some cI => .ok ((l1 :: rest).map (parseRow iI rI cI))
      | _, _, _ => .error .missingColumns
  | _ => .error .emptyTable

/-- `csvIdMap.get(s)` for the map built by `csvRows.forEach(row =>
csvIdMap.set(row.id, row))` : `Map.set` overwrites, so the last row with
the given id wins. -/
def lookupId (rows : List Row) (s : String) : Option Row :=
  rows.foldl (fun acc r => if r.id = some s then some r else acc) none

/-- `metricValues` : the finite values of the selected metric (the source
guards on `csvRows.length > 0`, which the empty list makes immaterial;
`Number` applied to a number is the identity). -/
def metricValues (rows : List Row) (m : Metric) : List ℚ :=
  if rows.isEmpty then [] else rows.filterMap (fun r => (r.get m).toFinite?)

/-- `metricMin` : `Math.min(...metricValues)` when nonempty, else `null`. -/
def metricMin (rows : List Row) (m : Metric) : Option ℚ :=
  match metricValues rows m with
  | [] => none
  | v :: vs => some (vs.foldl min v)

/-- `metricMax` : `Math.max(...metricValues)` when nonempty, else `null`. -/
def metricMax (rows : List Row) (m : Metric) : Option ℚ :=
  match metricValues rows m with
  | [] => none
  | v :: vs => some (vs.foldl max v)

/-! ## Geo document (`handleKmlUpload`, App.jsx lines 183-260) -/

/-- A `GeoJSON` feature as the app manipulates it: a top-level optional id
and a property bag.  Geometry plays no role in the verified logic. -/
structure Feature where
  id : Option String
  properties : List (String × JSVal)
  deriving DecidableEq, Repr

/-- A `<Placemark>` element of the markup document: its `id` attribute
(`none` when absent, as `getAttribute` returns `null`), its `<name>`
child's text (`""` when there is no such child, as in the source), and
whether it carries geometry. -/
structure Placemark where
  id : Option String
  name : String
  hasGeometry : Bool
  deriving DecidableEq, Repr

/-- `placemarkData` : `(id, name)` of every placemark, in source order,
keeping only placemarks whose id attribute is truthy
(`.filter(p => p.id)` drops `null` and `""`). -/
def placemarkData (pms : List Placemark) : List (String × String) :=
  pms.filterMap (fun p =>
    match p.id with
    | some i => if i = "" then none else some (i, p.name)
    | none => none)

/-- `nameToIdMap.get(n)` for the map built by iterating `placemarkData`
and calling `set(p.name.trim(), p.id)` whenever `p.name` is truthy:
`Map.set` overwrites, so the fold keeps the last matching entry. -/
def nameToId (pd : List (String × String)) (n : String) : Option String :=
  pd.foldl (fun acc p => if (p.2 != "") && (jsTrim p.2 == n) then some p.1 else acc) none

/-- The feature's display name as the id-extraction loop reads it:
`(feature.properties?.name || feature.properties?.Name || '').trim()`. -/
def displayName (f : Feature) : String :=
  jsTrim ((jsOrS (propStr f.properties "name") (propStr f.properties "Name")).getD "")

/-- `undefined` or `""` (the falsy strings), as tested by `!id`. -/
def jsFalsyS : Option String → Bool
  | none => true
  | some s => s == ""

/-- The body of the id-extraction loop for the feature at `index = i`:
positional id from the (filtered) `placemarkData`, name fallback when that
is falsy, dual write of a resolved id into the top-level slot and the
`id`/`placemarkId` property keys, then promotion of a pre-existing
property-bag id into an empty top-level slot. -/
def stepFeature (pd : List (String × String)) (i : ℕ) (f : Feature) : Feature :=
  let posId : Option String := (pd[i]?).map Prod.fst
  let resolved : Option String :=
    if jsFalsyS posId then nameToId pd (displayName f) else posId
  let f1 : Feature :=
    match resolved with
    | some s =>
        if s = "" then f
        else { f with
                id := some s
                properties :=
                  setProp (setProp f.properties "id" (.str s)) "placemarkId" (.str s) }
    | none => f
  if jsFalsyS f1.id then
    match propStr f1.properties "id" with
    | some s => if s = "" then f1 else { f1 with id := some s }
    | none => f1
  else f1

/-- The `geojson.features.forEach((feature, index) => ...)` loop,
carrying the running index. -/
def addIdsFrom (pd : List (String × String)) : ℕ → List Feature → List Feature
  | _, [] => []
  | i, f :: fs => stepFeature pd i f :: addIdsFrom pd (i + 1) fs

/-- The id-extraction loop over the whole feature list. -/
def addIds (pd : List (String × String)) (fs : List Feature) : List Feature :=
  addIdsFrom pd 0 fs

/-- Modelled from the spec: the markup-to-feature conversion performed by
the external `togeojson` library (not part of this repository).  One
feature per geometry-bearing placemark, in source order, carrying the
placemark's nonempty name in its property bag; a placemark without
geometry yields no feature (as the spec's end-to-end scenario requires of
its "separate name-tagged placemark", which is not among the rendered
features). -/
def togeoFeatures (pms : List Placemark) : List Feature :=
  pms.filterMap (fun p =>
    if p.hasGeometry then
      some { id := none
             properties := if p.name = "" then [] else [("name", .str p.name)] }
    else none)

/-- The feature list `handleKmlUpload` publishes: the converted features
with ids attached (the source runs the loop only when the list is
nonempty, which is immaterial as the loop does nothing on an empty
list). -/
def kmlFeatures (pms : List Placemark) : List Feature :=
  addIds (placemarkData pms) (togeoFeatures pms)

/-! ## Join resolver and presentation (App.jsx lines 474-531) -/

/-- `feature?.id || feature?.properties?.id || feature?.properties?.Id ||
feature?.properties?.ID` : the four-path id read, `||` skipping falsy
(absent or empty) values. -/
def featureIdRaw (f : Feature) : Option String :=
  jsOrS f.id (jsOrS (propStr f.properties "id")
    (jsOrS (propStr f.properties "Id") (propStr f.properties "ID")))

/-- `featureId ? csvIdMap.get(featureId) : null` : the join, guarding on
the truthiness of the resolved id. -/
def joinResolve (f : Feature) (rows : List Row) : Option Row :=
  match featureIdRaw f with
  | some s => if s = "" then none else lookupId rows s
  | none => none

/-- The first non-empty string among the four id paths (a spec-level
reformulation of the `||` chain, used to characterise `joinResolve`). -/
def firstTruthyId (f : Feature) : Option String :=
  (([f.id, propStr f.properties "id", propStr f.properties "Id",
     propStr f.properties "ID"].filterMap (fun x => x)).find? (fun s => s != ""))

/-- The first *defined* value among the four id paths — the resolution
rule as the claim's words state it (an empty string is defined), to be
compared with the source's truthiness-based chain. -/
def firstDefinedId (f : Feature) : Option String :=
  ([f.id, propStr f.properties "id", propStr f.properties "Id",
    propStr f.properties "ID"].filterMap (fun x => x)).head?

/-- The style record the `GeoJSON` style callback returns. -/
structure StyleRec where
  color : JSVal
  weight : JSVal
  opacity : JSVal
  fillColor : JSVal
  fillOpacity : JSVal
  deriving DecidableEq, Repr

/-- The `GeoJSON` style callback: resolve the id (the source repeats the
`||` chain of `featureIdRaw` verbatim), look the row up, and when a row
and both range endpoints exist use the classifier's color for the row's
selected-metric value (`Number` applied to the stored number is the
identity) for both stroke and fill; pass the remaining style properties
through with `|| default` fallbacks. -/
def styleFor (rows : List Row) (m : Metric) (f : Feature) : StyleRec :=
  let row? := joinResolve f rows
  let fill0 := jsOrVal (getProp f.properties "fill") (.str "#3388ff")
  let stroke0 := jsOrVal (getProp f.properties "stroke") (.str "#3388ff")
  let colors : JSVal × JSVal :=
    match row?, metricMin rows m, metricMax rows m with
    | some r, some mn, some mx =>
        let c := JSVal.str (getColorForValue (r.get m) (.fin mn) (.fin mx))
        (c, c)
    | _, _, _ => (stroke0, fill0)
  { color := colors.1
    weight := jsOrVal (getProp f.properties "stroke-width") (.num 3)
    opacity := jsOrVal (getProp f.properties "stroke-opacity") (.num (4 / 5))
    fillColor := colors.2
    fillOpacity := jsOrVal (getProp f.properties "fill-opacity") (.num (1 / 5)) }

/-! ## Upload handlers and application state -/

/-- The application state the two upload handlers replace wholesale. -/
structure AppState where
  kmlData : Option (List Feature)
  csvRows : List Row
  selectedMetric : Metric
  deriving DecidableEq, Repr

/-- The outcome an upload handler surfaces (via `message.success` /
`message.warning` / `message.error` in the source); the error
constructors carry the spec's `ParseError` taxonomy names. -/
inductive UploadResult where
  | success
  | emptyTable
  | missingColumns
  | emptyDocument
  deriving DecidableEq, Repr

/-- `handleCsvUpload` : on success replace `csvRows` and reset the
selected metric to revenue; on a parse error leave the state untouched. -/
def handleCsvUpload (text : String) (st : AppState) : AppState × UploadResult :=
  match parseCsv text with
  | .ok rows => ({ st with csvRows := rows, selectedMetric := .revenue }, .success)
  | .error .emptyTable => (st, .emptyTable)
  | .error .missingColumns => (st, .missingColumns)

/-- `handleKmlUpload` : publish the extracted features only when there is
at least one; otherwise warn and leave the state untouched. -/
def handleKmlUpload (pms : List Placemark) (st : AppState) : AppState × UploadResult :=
  let feats := kmlFeatures pms
  if feats.isEmpty then (st, .emptyDocument)
  else ({ st with kmlData := some feats }, .success)

/-! ## Concrete instances used by the claims -/

/-- `match x with | some s => some s | none => y` as a combinator. -/
def orO (x y : Option String) : Option String :=
  match x with
  | some s => some s
  | none => y

/-- Normalisation of a falsy-guarded optional string: `some ""` and `none`
both become `none`. -/
def cleanS : Option String → Option String
  | some s => if s = "" then none else some s
  | none => none

/-- The feature refuting C6 as stated: its top-level id is the *defined*
empty string while its `id` property holds `"S1"`. -/
def c6F : Feature := { id := some "", properties := [("id", .str "S1")] }

/-- The record index for the C6 counterexample. -/
def c6Row : Row := { id := some "S1", revenue := .fin 1, cost := .fin 2 }

/-- The feature refuting C8 as stated: its `fill-opacity` property is
present with the (falsy) value `0`. -/
def c8F : Feature := { id := none, properties := [("fill-opacity", .num 0)] }

/-- The rows parsed from the C9 instance, whose first revenue cell is
empty. -/
def c9Rows : List Row :=
  [{ id := some "A", revenue := .fin 0, cost := .fin 5 },
   { id := some "B", revenue := .fin 10, cost := .fin 6 }]

/-- The three placemarks of claim C2's failing input: the first carries no
id attribute, the next two carry `"A"` and `"B"`. -/
def c2Placemarks : List Placemark :=
  [{ id := none, name := "P", hasGeometry := true },
   { id := some "A", name := "Q", hasGeometry := true },
   { id := some "B", name := "R", hasGeometry := true }]

/-- The geo document of the C1 scenario, placemarks in source order:
"North" with no id, "South" with id `"S2"` (both with geometry), then the
separate name-tagged placemark "North" with id `"S1"` (no geometry, so it
yields no feature). -/
def c1Placemarks : List Placemark :=
  [{ id := none, name := "North", hasGeometry := true },
   { id := some "S2", name := "South", hasGeometry := true },
   { id := some "S1", name := "North", hasGeometry := false }]

/-- The tabular text of the C1 scenario. -/
def c1Csv : String := "id,revenue,cost\nS1,100,40\nS2,200,150"

/-- The rows parsed from the C1 tabular text. -/
def c1Rows : List Row :=
  [{ id := some "S1", revenue := .fin 100, cost := .fin 40 },
   { id := some "S2", revenue := .fin 200, cost := .fin 150 }]

/-- Placemarks for the C3 witness: the second has no id but shares its
name with the first, which has id `"X"`. -/
def c3PmsA : List Placemark :=
  [{ id := some "X", name := "Alpha", hasGeometry := true },
   { id := none, name := "Alpha", hasGeometry := true }]

/-- Placemarks for the C3 witness: the second has no id and a name found
nowhere else. -/
def c3PmsB : List Placemark :=
  [{ id := some "X", name := "Alpha", hasGeometry := true },
   { id := none, name := "Beta", hasGeometry := true }]

/-- The output feature at position 1 for `c3PmsA`. -/
def c3FA : Feature :=
  ⟨some "X", [("name", .str "Alpha"), ("id", .str "X"), ("placemarkId", .str "X")]⟩

/-- The output feature at position 1 for `c3PmsB`. -/
def c3FB : Feature := ⟨none, [("name", .str "Beta")]⟩

/-- The application state used by the C7 witness. -/
def c7St : AppState := { kmlData := none, csvRows := [], selectedMetric := .revenue }

/-! ## Claims -/

/-! ## Helper lemmas -/

/-- The interpolation formula branch of the classifier. -/
theorem getColor_formula (v a b : ℚ) (h : a ≠ b) :
    getColorForValue (.fin v) (.fin a) (.fin b) =
      rgbStr (jround (237 + ((88 : ℚ) - 237) * ((v - a) / (b - a))))
        (jround (233 + ((28 : ℚ) - 233) * ((v - a) / (b - a))))
        (jround (254 + ((135 : ℚ) - 254) * ((v - a) / (b - a)))) := by
  simp only [getColorForValue, if_neg h]

/-- The guard branch of the classifier. -/
theorem getColor_neutral (value mn mx : JSNum)
    (h : value.isFinite = false ∨ mn.isFinite = false ∨ mx.isFinite = false ∨ mn = mx) :
    getColorForValue value mn mx = "#7c3aed" := by
  rcases value with v | _ | _ | _ <;> rcases mn with a | _ | _ | _ <;>
    rcases mx with b | _ | _ | _ <;>
    simp_all [getColorForValue, JSNum.isFinite]

/-- At `value = min` the classifier returns the light anchor exactly. -/
theorem getColor_light (a b : ℚ) (h : a ≠ b) :
    getColorForValue (.fin a) (.fin a) (.fin b) = "rgb(237, 233, 254)" := by
  rw [getColor_formula a a b h]
  have ht : (a - a) / (b - a) = 0 := by rw [sub_self, zero_div]
  rw [ht]
  have r1 : jround (237 + ((88 : ℚ) - 237) * 0) = 237 := by norm_num [jround]
  have r2 : jround (233 + ((28 : ℚ) - 233) * 0) = 233 := by norm_num [jround]
  have r3 : jround (254 + ((135 : ℚ) - 254) * 0) = 254 := by norm_num [jround]
  rw [r1, r2, r3]
  rfl

/-- At `value = max` the classifier returns the dark anchor exactly. -/
theorem getColor_dark (a b : ℚ) (h : a ≠ b) :
    getColorForValue (.fin b) (.fin a) (.fin b) = "rgb(88, 28, 135)" := by
  rw [getColor_formula b a b h]
  have ht : (b - a) / (b - a) = 1 := div_self (sub_ne_zero.mpr (Ne.symm h))
  rw [ht]
  have r1 : jround (237 + ((88 : ℚ) - 237) * 1) = 88 := by norm_num [jround]
  have r2 : jround (233 + ((28 : ℚ) - 233) * 1) = 28 := by norm_num [jround]
  have r3 : jround (254 + ((135 : ℚ) - 254) * 1) = 135 := by norm_num [jround]
  rw [r1, r2, r3]
  rfl

/-- Claim C4: the classifier returns the fixed neutral color whenever an
argument is non-finite or the range collapses; otherwise every channel is
`round(light + (dark - light) * t)` with `t = (value - min)/(max - min)`
for the anchors `(237,233,254)` and `(88,28,135)`; at `value = min` it is
exactly the light anchor and at `value = max` exactly the dark anchor. -/
theorem c4_classifier :
    (∀ value mn mx : JSNum,
        value.isFinite = false ∨ mn.isFinite = false ∨ mx.isFinite = false ∨ mn = mx →
        getColorForValue value mn mx = "#7c3aed") ∧
    (∀ v a b : ℚ, a ≠ b →
        getColorForValue (.fin v) (.fin a) (.fin b) =
          rgbStr (jround (237 + ((88 : ℚ) - 237) * ((v - a) / (b - a))))
            (jround (233 + ((28 : ℚ) - 233) * ((v - a) / (b - a))))
            (jround (254 + ((135 : ℚ) - 254) * ((v - a) / (b - a))))) ∧
    (∀ a b : ℚ, a ≠ b →
        getColorForValue (.fin a) (.fin a) (.fin b) = "rgb(237, 233, 254)" ∧
        getColorForValue (.fin b) (.fin a) (.fin b) = "rgb(88, 28, 135)") :=
  ⟨getColor_neutral, getColor_formula, fun a b h => ⟨getColor_light a b h, getColor_dark a b h⟩⟩

/-- Witness for C4 at concrete inputs. -/
theorem c4_classifier_witness :
    getColorForValue .nan (.fin 0) (.fin 1) = "#7c3aed" ∧
    getColorForValue (.fin 5) (.fin 7) (.fin 7) = "#7c3aed" ∧
    getColorForValue (.fin 100) (.fin 100) (.fin 200) = "rgb(237, 233, 254)" ∧
    getColorForValue (.fin 200) (.fin 100) (.fin 200) = "rgb(88, 28, 135)" ∧
    getColorForValue (.fin 150) (.fin 100) (.fin 200) =
      rgbStr (jround (237 + ((88 : ℚ) - 237) * (((150 : ℚ) - 100) / (200 - 100))))
        (jround (233 + ((28 : ℚ) - 233) * (((150 : ℚ) - 100) / (200 - 100))))
        (jround (254 + ((135 : ℚ) - 254) * (((150 : ℚ) - 100) / (200 - 100)))) :=
  ⟨c4_classifier.1 .nan (.fin 0) (.fin 1) (Or.inl rfl),
   c4_classifier.1 (.fin 5) (.fin 7) (.fin 7) (Or.inr (Or.inr (Or.inr rfl))),
   (c4_classifier.2.2 100 200 (by norm_num)).1,
   (c4_classifier.2.2 100 200 (by norm_num)).2,
   c4_classifier.2.1 150 100 200 (by norm_num)⟩

theorem orO_none (x : Option String) : orO x none = x := by
  cases x <;> rfl

theorem cleanS_jsOrS (a b : Option String) :
    cleanS (jsOrS a b) = orO (cleanS a) (cleanS b) := by
  rcases a with _ | s
  · rfl
  · by_cases hs : s = "" <;> simp [jsOrS, cleanS, orO, hs]

theorem find_filterMap_cons (a : Option String) (l : List (Option String)) :
    (((a :: l).filterMap (fun x => x)).find? (fun s => s != "")) =
      orO (cleanS a) ((l.filterMap (fun x => x)).find? (fun s => s != "")) := by
  rcases a with _ | s
  · simp only [List.filterMap_cons]
    rfl
  · simp only [List.filterMap_cons]
    by_cases hs : s = ""
    · subst hs
      rw [List.find?_cons_of_neg _ (by simp)]
      rfl
    · rw [List.find?_cons_of_pos _ (by simp [hs])]
      simp [cleanS, orO, hs]

/-- The source's truthiness-guarded `||` chain equals the first non-empty
value among the four id paths. -/
theorem firstTruthyId_eq (f : Feature) :
    firstTruthyId f = cleanS (featureIdRaw f) := by
  unfold firstTruthyId featureIdRaw
  rw [find_filterMap_cons, find_filterMap_cons, find_filterMap_cons, find_filterMap_cons,
    cleanS_jsOrS, cleanS_jsOrS, cleanS_jsOrS]
  simp [orO_none, List.find?]

/-- `joinResolve` looks the first non-empty id path up in the index. -/
theorem joinResolve_eq (f : Feature) (rows : List Row) :
    joinResolve f rows = (firstTruthyId f).bind (fun s => lookupId rows s) := by
  rw [firstTruthyId_eq]
  unfold joinResolve cleanS
  rcases h : featureIdRaw f with _ | s
  · rfl
  · by_cases hs : s = "" <;> simp [hs]

/-- Fold invariant: a `lookupId` hit stores a row whose id is the key. -/
theorem lookupId_acc (s : String) :
    ∀ (rows : List Row) (acc : Option Row),
      (∀ r, acc = some r → r.id = some s) →
      ∀ r, rows.foldl (fun a x => if x.id = some s then some x else a) acc = some r →
        r.id = some s := by
  intro rows
  induction rows with
  | nil => intro acc hacc r h; exact hacc r h
  | cons x xs ih =>
      intro acc hacc r h
      rw [List.foldl_cons] at h
      refine ih _ ?_ r h
      intro r2 h2
      by_cases hx : x.id = some s
      · rw [if_pos hx] at h2
        injection h2 with he
        rw [← he]; exact hx
      · rw [if_neg hx] at h2
        exact hacc r2 h2

/-- A `lookupId` hit stores a row whose id is the key. -/
theorem lookupId_id (rows : List Row) (s : String) (r : Row)
    (h : lookupId rows s = some r) : r.id = some s :=
  lookupId_acc s rows none (fun _ hx => by cases hx) r h

/-- Claim C6 (amended): for every feature and every record index, the join
is total and equals looking up the first non-empty (truthy) value among
the top-level id and the `id`/`Id`/`ID` property keys — an empty string at
an earlier path is skipped — returning no match when all four paths are
absent or empty or when the identifier is not a key of the index; no
trimming or case-folding is applied at lookup time. -/
theorem c6_join_resolution (f : Feature) (rows : List Row) :
    joinResolve f rows = (firstTruthyId f).bind (fun s => lookupId rows s) :=
  joinResolve_eq f rows

/-- Counterexample to C6 as stated: the first *defined* id path is the
empty string, which is not a key of the index, so the claimed rule
dictates "no match" — but the code skips the falsy empty string and
returns the record keyed `"S1"`. -/
theorem c6_first_defined_cex :
    firstDefinedId c6F = some "" ∧
    lookupId [c6Row] "" = none ∧
    joinResolve c6F [c6Row] = some c6Row ∧
    joinResolve c6F [c6Row] ≠ (firstDefinedId c6F).bind (fun s => lookupId [c6Row] s) := by
  decide

/-- Claim C10: a resolved identifier that is the empty string short-circuits
the join — the index is never consulted, whatever it contains — and a
record whose id is the empty string is never returned by the join. -/
theorem c10_empty_identifier :
    (∀ (f : Feature) (rows : List Row),
        featureIdRaw f = some "" → joinResolve f rows = none) ∧
    (∀ (f : Feature) (rows : List Row) (r : Row),
        joinResolve f rows = some r → r.id ≠ some "") := by
  constructor
  · intro f rows h
    unfold joinResolve
    rw [h]
    simp
  · intro f rows r h
    rw [joinResolve_eq] at h
    rcases ho : firstTruthyId f with _ | s
    · rw [ho] at h; simp at h
    · rw [ho] at h
      replace h : lookupId rows s = some r := h
      have hs : (s != "") = true := by
        have h4 : ([f.id, propStr f.properties "id", propStr f.properties "Id",
            propStr f.properties "ID"].filterMap (fun x => x)).find? (fun x => x != "") =
            some s := ho
        have h5 := List.find?_some h4
        exact h5
      have hid : r.id = some s := lookupId_id rows s r h
      rw [hid]
      intro hc
      injection hc with he
      rw [he] at hs
      simp at hs

/-- Witness for C10 at concrete inputs. -/
theorem c10_empty_identifier_witness :
    joinResolve { id := none, properties := [("ID", .str "")] }
        [{ id := some "", revenue := .fin 1, cost := .fin 2 }] = none ∧
    ({ id := some "S1", revenue := .fin 3, cost := .fin 4 } : Row).id ≠ some "" :=
  ⟨c10_empty_identifier.1 { id := none, properties := [("ID", .str "")] } _ rfl,
   c10_empty_identifier.2 { id := some "S1", properties := [] }
     [{ id := some "S1", revenue := .fin 3, cost := .fin 4 }] _ rfl⟩

/-- Counterexample to C8 as stated: a present `fill-opacity` of `0` does
not pass through unchanged — the `||` fallback replaces it with the
default `0.2`. -/
theorem c8_passthrough_cex :
    getProp c8F.properties "fill-opacity" = some (.num 0) ∧
    (styleFor [] .revenue c8F).fillOpacity = .num (1 / 5) ∧
    JSVal.num (1 / 5) ≠ JSVal.num 0 := by
  refine ⟨rfl, rfl, ?_⟩
  intro h
  injection h with he
  norm_num at he

/-- Claim C8 (amended): non-metric style properties pass through from the
feature's properties when *truthy*; the fixed defaults (weight `3`,
stroke-opacity `0.8`, fill-opacity `0.2`) apply when the property is
absent *or falsy* (`0` or `""`); and whenever the feature matches a record
and a metric range exists, both the stroke color and the fill color are
the classifier's color for the matched record's selected-metric value. -/
theorem c8_style_fields (rows : List Row) (m : Metric) (f : Feature) :
    ((∀ v, getProp f.properties "stroke-width" = some v → jsTruthy v = true →
        (styleFor rows m f).weight = v) ∧
     (getProp f.properties "stroke-width" = none ∨
       (∃ v, getProp f.properties "stroke-width" = some v ∧ jsTruthy v = false) →
        (styleFor rows m f).weight = .num 3)) ∧
    ((∀ v, getProp f.properties "stroke-opacity" = some v → jsTruthy v = true →
        (styleFor rows m f).opacity = v) ∧
     (getProp f.properties "stroke-opacity" = none ∨
       (∃ v, getProp f.properties "stroke-opacity" = some v ∧ jsTruthy v = false) →
        (styleFor rows m f).opacity = .num (4 / 5))) ∧
    ((∀ v, getProp f.properties "fill-opacity" = some v → jsTruthy v = true →
        (styleFor rows m f).fillOpacity = v) ∧
     (getProp f.properties "fill-opacity" = none ∨
       (∃ v, getProp f.properties "fill-opacity" = some v ∧ jsTruthy v = false) →
        (styleFor rows m f).fillOpacity = .num (1 / 5))) ∧
    (∀ r mn mx, joinResolve f rows = some r →
        metricMin rows m = some mn → metricMax rows m = some mx →
        (styleFor rows m f).color = .str (getColorForValue (r.get m) (.fin mn) (.fin mx)) ∧
        (styleFor rows m f).fillColor =
          .str (getColorForValue (r.get m) (.fin mn) (.fin mx))) := by
  have hw : (styleFor rows m f).weight =
      jsOrVal (getProp f.properties "stroke-width") (.num 3) := rfl
  have hop : (styleFor rows m f).opacity =
      jsOrVal (getProp f.properties "stroke-opacity") (.num (4 / 5)) := rfl
  have hfo : (styleFor rows m f).fillOpacity =
      jsOrVal (getProp f.properties "fill-opacity") (.num (1 / 5)) := rfl
  refine ⟨⟨?_, ?_⟩, ⟨?_, ?_⟩, ⟨?_, ?_⟩, ?_⟩
  · intro v hv ht; rw [hw, hv]; simp [jsOrVal, ht]
  · rintro (hv | ⟨v, hv, ht⟩)
    · rw [hw, hv]; rfl
    · rw [hw, hv]; simp [jsOrVal, ht]
  · intro v hv ht; rw [hop, hv]; simp [jsOrVal, ht]
  · rintro (hv | ⟨v, hv, ht⟩)
    · rw [hop, hv]; rfl
    · rw [hop, hv]; simp [jsOrVal, ht]
  · intro v hv ht; rw [hfo, hv]; simp [jsOrVal, ht]
  · rintro (hv | ⟨v, hv, ht⟩)
    · rw [hfo, hv]; rfl
    · rw [hfo, hv]; simp [jsOrVal, ht]
  · intro r mn mx h1 h2 h3
    constructor <;> simp only [styleFor, h1, h2, h3]

/-- Witness for C8 at concrete inputs. -/
theorem c8_style_fields_witness :
    (styleFor [] .revenue { id := none, properties := [("stroke-width", .num 5)] }).weight =
      .num 5 ∧
    (styleFor [] .revenue { id := none, properties := [] }).weight = .num 3 ∧
    (styleFor [] .revenue { id := none, properties := [("stroke-opacity", .num 1)] }).opacity =
      .num 1 ∧
    (styleFor [] .revenue { id := none, properties := [] }).opacity = .num (4 / 5) ∧
    (styleFor [] .revenue
        { id := none, properties := [("fill-opacity", .num (1 / 2))] }).fillOpacity =
      .num (1 / 2) ∧
    (styleFor [] .revenue { id := none, properties := [] }).fillOpacity = .num (1 / 5) ∧
    (styleFor [{ id := some "A", revenue := .fin 0, cost := .fin 1 },
               { id := some "B", revenue := .fin 2, cost := .fin 3 }] .revenue
        { id := some "A", properties := [] }).color =
      .str (getColorForValue (.fin 0) (.fin 0) (.fin 2)) :=
  ⟨(c8_style_fields [] .revenue _).1.1 (.num 5) rfl rfl,
   (c8_style_fields [] .revenue _).1.2 (Or.inl rfl),
   (c8_style_fields [] .revenue _).2.1.1 (.num 1) rfl rfl,
   (c8_style_fields [] .revenue _).2.1.2 (Or.inl rfl),
   (c8_style_fields [] .revenue _).2.2.1.1 (.num (1 / 2)) rfl (by norm_num [jsTruthy]),
   (c8_style_fields [] .revenue _).2.2.1.2 (Or.inl rfl),
   ((c8_style_fields [{ id := some "A", revenue := .fin 0, cost := .fin 1 },
       { id := some "B", revenue := .fin 2, cost := .fin 3 }] .revenue
       { id := some "A", properties := [] })).2.2.2
     { id := some "A", revenue := .fin 0, cost := .fin 1 } 0 2 rfl rfl rfl |>.1⟩

/-- Claim C5: for every tabular text with at least one data row and a
header containing the `id`, `revenue` and `cost` columns (any physical
order), parsing is lossless — one record per data line — and each
record's identifier is the trimmed source cell at the `id` header's
discovered index. -/
theorem c5_csv_lossless (text l0 l1 : String) (rest : List String) (iI rI cI : ℕ)
    (hsplit : splitLinesJS (jsTrim text) = l0 :: l1 :: rest)
    (hid : ((jsSplit ',' l0).map jsTrim).findIdx? (fun h => h == "id") = some iI)
    (hrev : ((jsSplit ',' l0).map jsTrim).findIdx? (fun h => h == "revenue") = some rI)
    (hcost : ((jsSplit ',' l0).map jsTrim).findIdx? (fun h => h == "cost") = some cI) :
    ∃ rows : List Row, parseCsv text = .ok rows ∧
      rows.length = (l1 :: rest).length ∧
      ∀ k : ℕ, rows[k]?.map Row.id =
        ((l1 :: rest)[k]?).map (fun line => ((jsSplit ',' line).map jsTrim)[iI]?) := by
  refine ⟨(l1 :: rest).map (parseRow iI rI cI), ?_, by simp, ?_⟩
  · unfold parseCsv
    rw [hsplit]
    simp only [hid, hrev, hcost]
  · intro k
    rw [List.getElem?_map, Option.map_map]
    rcases (l1 :: rest)[k]? with _ | line
    · rfl
    · simp [parseRow]

/-- Witness for C5: a concrete CSV whose columns are physically reordered. -/
theorem c5_csv_lossless_witness :
    ∃ rows : List Row, parseCsv "cost, id ,revenue\nc1, A1 ,9" = .ok rows ∧
      rows.length = (["c1, A1 ,9"] : List String).length ∧
      ∀ k : ℕ, rows[k]?.map Row.id =
        ((["c1, A1 ,9"] : List String)[k]?).map
          (fun line => ((jsSplit ',' line).map jsTrim)[1]?) :=
  c5_csv_lossless "cost, id ,revenue\nc1, A1 ,9" "cost, id ,revenue" "c1, A1 ,9" [] 1 2 0
    rfl rfl rfl rfl

/-- Claim C7: a CSV with fewer than two lines fails as an empty table; a
CSV whose header lacks one of the three required columns fails with
missing columns; a markup document producing zero features fails as an
empty document; and every such failure leaves the application state (the
loaded feature collection and record rows) unchanged. -/
theorem c7_parse_errors :
    (∀ (text : String) (st : AppState),
        (splitLinesJS (jsTrim text)).length < 2 →
        handleCsvUpload text st = (st, .emptyTable)) ∧
    (∀ (text l0 l1 : String) (rest : List String) (st : AppState),
        splitLinesJS (jsTrim text) = l0 :: l1 :: rest →
        (((jsSplit ',' l0).map jsTrim).findIdx? (fun h => h == "id") = none ∨
         ((jsSplit ',' l0).map jsTrim).findIdx? (fun h => h == "revenue") = none ∨
         ((jsSplit ',' l0).map jsTrim).findIdx? (fun h => h == "cost") = none) →
        handleCsvUpload text st = (st, .missingColumns)) ∧
    (∀ (pms : List Placemark) (st : AppState),
        kmlFeatures pms = [] →
        handleKmlUpload pms st = (st, .emptyDocument)) := by
  refine ⟨?_, ?_, ?_⟩
  · intro text st h
    unfold handleCsvUpload parseCsv
    rcases hs : splitLinesJS (jsTrim text) with _ | ⟨a, _ | ⟨b, l⟩⟩
    · rfl
    · rfl
    · rw [hs] at h
      simp at h
      omega
  · intro text l0 l1 rest st hsplit h
    unfold handleCsvUpload parseCsv
    rw [hsplit]
    rcases h1 : ((jsSplit ',' l0).map jsTrim).findIdx? (fun h => h == "id") with _ | i <;>
      rcases h2 : ((jsSplit ',' l0).map jsTrim).findIdx? (fun h => h == "revenue") with _ | r <;>
      rcases h3 : ((jsSplit ',' l0).map jsTrim).findIdx? (fun h => h == "cost") with _ | c <;>
      simp only [h1, h2, h3]
    rcases h with h | h | h
    · simp [h] at h1
    · simp [h] at h2
    · simp [h] at h3
  · intro pms st h
    unfold handleKmlUpload
    rw [h]
    rfl

/-- Witness for C7 at concrete inputs. -/
theorem c7_parse_errors_witness :
    handleCsvUpload "id,revenue,cost" c7St = (c7St, .emptyTable) ∧
    handleCsvUpload "name,value\n1,2" c7St = (c7St, .missingColumns) ∧
    handleKmlUpload [{ id := some "Z", name := "n", hasGeometry := false }] c7St =
      (c7St, .emptyDocument) :=
  ⟨c7_parse_errors.1 "id,revenue,cost" c7St (by decide),
   c7_parse_errors.2.1 "name,value\n1,2" "name,value" "1,2" [] c7St rfl (Or.inl rfl),
   c7_parse_errors.2.2 [{ id := some "Z", name := "n", hasGeometry := false }] c7St rfl⟩

/-- Claim C9: an empty or whitespace-only cell coerces to the finite
number `0` (not to NaN), a row holding `0` contributes `0` to the metric
value list the range is computed from, and on a concrete table with an
empty revenue cell the affected feature is colored (here with the light
anchor, `0` being the minimum) rather than given the neutral color. -/
theorem c9_blank_cell :
    (∀ cell : String, cell.toList.all jsWS = true → jsNumber cell = .fin 0) ∧
    (∀ (rows : List Row) (k : ℕ) (r : Row) (m : Metric),
        rows[k]? = some r → r.get m = .fin 0 → (0 : ℚ) ∈ metricValues rows m) ∧
    (parseCsv "id,revenue,cost\nA,,5\nB,10,6" = .ok c9Rows ∧
      metricMin c9Rows .revenue = some 0 ∧
      metricMax c9Rows .revenue = some 10 ∧
      (styleFor c9Rows .revenue { id := some "A", properties := [] }).fillColor =
        .str "rgb(237, 233, 254)" ∧
      JSVal.str "rgb(237, 233, 254)" ≠ JSVal.str "#7c3aed") := by
  refine ⟨?_, ?_, rfl, rfl, rfl, ?_, by decide⟩
  · intro cell h
    have hd : cell.toList.dropWhile jsWS = [] :=
      List.dropWhile_eq_nil_iff.mpr (fun x hx => by
        have := List.all_eq_true.mp h x hx
        simpa using this)
    show jsStrCore (jsTrim cell).toList = .fin 0
    unfold jsTrim
    rw [hd]
    rfl
  · intro rows k r m hk hr
    have hmem : r ∈ rows := List.mem_iff_getElem?.mpr ⟨k, hk⟩
    have hne : rows.isEmpty = false := by
      cases rows
      · simp at hk
      · rfl
    unfold metricValues
    rw [hne]
    simp only [Bool.false_eq_true, if_false]
    exact List.mem_filterMap.mpr ⟨r, hmem, by rw [hr]; rfl⟩
  · have hj : joinResolve { id := some "A", properties := [] } c9Rows =
        some { id := some "A", revenue := .fin 0, cost := .fin 5 } := rfl
    have hmin : metricMin c9Rows .revenue = some 0 := rfl
    have hmax : metricMax c9Rows .revenue = some 10 := rfl
    have : (styleFor c9Rows .revenue { id := some "A", properties := [] }).fillColor =
        .str (getColorForValue (.fin 0) (.fin 0) (.fin 10)) := by
      simp only [styleFor, hj, hmin, hmax]
      rfl
    rw [this, getColor_light 0 10 (by norm_num)]

/-- Witness for C9 at concrete inputs. -/
theorem c9_blank_cell_witness :
    jsNumber "  " = .fin 0 ∧ (0 : ℚ) ∈ metricValues c9Rows .revenue :=
  ⟨c9_blank_cell.1 "  " rfl,
   c9_blank_cell.2.1 c9Rows 0 { id := some "A", revenue := .fin 0, cost := .fin 5 }
     .revenue rfl rfl⟩

/-- Claim C2, evaluated at its failing input: because the source filters
`placemarkData` down to id-bearing placemarks *before* indexing it by
feature position, feature 1 receives `"B"` although the placemark at
position 1 carries the id `"A"` (and feature 0 receives `"A"` although its
placemark carries no id at all) — refuting the claimed 1:1 positional
alignment. -/
theorem c2_positional_actual :
    c2Placemarks.map Placemark.id = [none, some "A", some "B"] ∧
    (kmlFeatures c2Placemarks).map Feature.id = [some "A", some "B", some "B"] ∧
    (some "B" : Option String) ≠ some "A" := by
  refine ⟨rfl, rfl, by decide⟩

/-- Claim C1, evaluated at the spec's scenario: the revenue range is
`{100, 200}` as claimed, but the id-filtered positional matching assigns
feature "North" the id `"S2"` (not `"S1"`) and feature "South" the id
`"S1"` (not `"S2"`), so "North" is colored with the *dark* anchor and
"South" with the *light* anchor — exactly the opposite of the claim. -/
theorem c1_scenario_actual :
    parseCsv c1Csv = .ok c1Rows ∧
    metricMin c1Rows .revenue = some 100 ∧
    metricMax c1Rows .revenue = some 200 ∧
    (kmlFeatures c1Placemarks).map displayName = ["North", "South"] ∧
    (kmlFeatures c1Placemarks).map Feature.id = [some "S2", some "S1"] ∧
    (kmlFeatures c1Placemarks).map (fun f => (styleFor c1Rows .revenue f).fillColor) =
      [.str "rgb(88, 28, 135)", .str "rgb(237, 233, 254)"] := by
  refine ⟨rfl, rfl, rfl, rfl, rfl, ?_⟩
  have hfeats : kmlFeatures c1Placemarks =
      [{ id := some "S2",
         properties := [("name", .str "North"), ("id", .str "S2"),
           ("placemarkId", .str "S2")] },
       { id := some "S1",
         properties := [("name", .str "South"), ("id", .str "S1"),
           ("placemarkId", .str "S1")] }] := rfl
  rw [hfeats]
  have hN : (styleFor c1Rows .revenue
      { id := some "S2",
        properties := [("name", .str "North"), ("id", .str "S2"),
          ("placemarkId", .str "S2")] }).fillColor =
      .str (getColorForValue (.fin 200) (.fin 100) (.fin 200)) := by
    have hj : joinResolve
        { id := some "S2",
          properties := [("name", .str "North"), ("id", .str "S2"),
            ("placemarkId", .str "S2")] } c1Rows =
        some { id := some "S2", revenue := .fin 200, cost := .fin 150 } := rfl
    have hmin : metricMin c1Rows .revenue = some 100 := rfl
    have hmax : metricMax c1Rows .revenue = some 200 := rfl
    simp only [styleFor, hj, hmin, hmax]
    rfl
  have hS : (styleFor c1Rows .revenue
      { id := some "S1",
        properties := [("name", .str "South"), ("id", .str "S1"),
          ("placemarkId", .str "S1")] }).fillColor =
      .str (getColorForValue (.fin 100) (.fin 100) (.fin 200)) := by
    have hj : joinResolve
        { id := some "S1",
          properties := [("name", .str "South"), ("id", .str "S1"),
            ("placemarkId", .str "S1")] } c1Rows =
        some { id := some "S1", revenue := .fin 100, cost := .fin 40 } := rfl
    have hmin : metricMin c1Rows .revenue = some 100 := rfl
    have hmax : metricMax c1Rows .revenue = some 200 := rfl
    simp only [styleFor, hj, hmin, hmax]
    rfl
  simp only [List.map_cons, List.map_nil, hN, hS]
  rw [getColor_dark 100 200 (by norm_num), getColor_light 100 200 (by norm_num)]

/-- The extraction loop maps position `i + k` over the feature at offset
`k`. -/
theorem addIdsFrom_getElem? (pd : List (String × String)) :
    ∀ (fs : List Feature) (i k : ℕ),
      (addIdsFrom pd i fs)[k]? = (fs[k]?).map (stepFeature pd (i + k)) := by
  intro fs
  induction fs with
  | nil => intro i k; simp [addIdsFrom]
  | cons f fs ih =>
      intro i k
      cases k with
      | zero => simp [addIdsFrom]
      | succ k =>
          simp only [addIdsFrom, List.getElem?_cons_succ]
          rw [ih (i + 1) k]
          have hik : i + 1 + k = i + (k + 1) := by omega
          rw [hik]

/-- Setting one key leaves every other key's value unchanged. -/
theorem getProp_setProp_ne (k k2 : String) (v : JSVal) (h : k2 ≠ k) :
    ∀ l : List (String × JSVal), getProp (setProp l k v) k2 = getProp l k2 := by
  have h2 : ¬(k = k2) := fun hc => h hc.symm
  intro l
  induction l with
  | nil => simp [setProp, getProp, h2]
  | cons p ps ih =>
      by_cases hp : p.1 = k
      · simp [setProp, getProp, hp, h2, ih]
      · by_cases hq : p.1 = k2 <;> simp [setProp, getProp, hp, hq, ih, h2, h]

/-- `propStr` version of the previous lemma. -/
theorem propStr_setProp_ne (l : List (String × JSVal)) (k k2 : String) (v : JSVal)
    (h : k2 ≠ k) : propStr (setProp l k v) k2 = propStr l k2 := by
  unfold propStr
  rw [getProp_setProp_ne k k2 v h l]

/-- The display name only reads the `name`/`Name` keys, which the loop's
dual id write does not touch. -/
theorem displayName_after_write (x y : Option String) (P : List (String × JSVal))
    (v1 v2 : JSVal) :
    displayName ⟨x, setProp (setProp P "id" v1) "placemarkId" v2⟩ =
      displayName ⟨y, P⟩ := by
  unfold displayName
  rw [propStr_setProp_ne _ _ _ _ (by decide), propStr_setProp_ne _ _ _ _ (by decide),
    propStr_setProp_ne _ _ _ _ (by decide), propStr_setProp_ne _ _ _ _ (by decide)]

/-- A converted feature starts with no top-level id and no `id` property. -/
theorem togeo_shape (pms : List Placemark) (k : ℕ) (f0 : Feature)
    (h : (togeoFeatures pms)[k]? = some f0) :
    f0.id = none ∧ propStr f0.properties "id" = none := by
  have hmem : f0 ∈ togeoFeatures pms := List.mem_iff_getElem?.mpr ⟨k, h⟩
  rcases List.mem_filterMap.mp hmem with ⟨p, _, hp⟩
  by_cases hg : p.hasGeometry
  · rw [if_pos hg] at hp
    injection hp with hp
    subst hp
    by_cases hn : p.name = "" <;> simp [propStr, getProp, hn]
  · rw [if_neg hg] at hp
    cases hp

/-- Every entry of the filtered `placemarkData` carries a nonempty id. -/
theorem placemarkData_ne (pms : List Placemark) :
    ∀ p ∈ placemarkData pms, p.1 ≠ "" := by
  intro p hp
  rcases List.mem_filterMap.mp hp with ⟨q, _, hq⟩
  rcases hqid : q.id with _ | i
  · rw [hqid] at hq
    replace hq : (none : Option (String × String)) = some p := hq
    cases hq
  · rw [hqid] at hq
    replace hq : (if i = "" then none else some (i, q.name)) = some p := hq
    by_cases hi : i = ""
    · rw [if_pos hi] at hq; cases hq
    · rw [if_neg hi] at hq
      injection hq with hq
      rw [← hq]
      exact hi

/-- Fold invariant: any id the name map returns is the first component of
one of its entries. -/
theorem nameToId_ne_of (n : String) :
    ∀ (pd : List (String × String)) (acc : Option String),
      (∀ v, acc = some v → v ≠ "") → (∀ p ∈ pd, p.1 ≠ "") →
      ∀ v, pd.foldl
          (fun acc p => if (p.2 != "") && (jsTrim p.2 == n) then some p.1 else acc)
          acc = some v →
        v ≠ "" := by
  intro pd
  induction pd with
  | nil => intro acc hacc _ v h; exact hacc v h
  | cons p ps ih =>
      intro acc hacc hpd v h
      rw [List.foldl_cons] at h
      refine ih _ ?_ (fun q hq => hpd q (List.mem_cons_of_mem p hq)) v h
      intro v2 h2
      by_cases hc : ((p.2 != "") && (jsTrim p.2 == n)) = true
      · rw [if_pos hc] at h2
        injection h2 with h2
        rw [← h2]
        exact hpd p (List.mem_cons_self p ps)
      · rw [if_neg (by simpa using hc)] at h2
        exact hacc v2 h2

/-- The name map of a placemark list never returns an empty id. -/
theorem nameToId_placemarkData_ne (pms : List Placemark) (n v : String)
    (h : nameToId (placemarkData pms) n = some v) : v ≠ "" :=
  nameToId_ne_of n (placemarkData pms) none (fun _ hx => by cases hx)
    (placemarkData_ne pms) v h

/-- Last-write-wins: an overwrite fold over a list equals the last
matching entry (or the initial accumulator). -/
theorem foldl_overwrite (g : String × String → Bool) :
    ∀ (l : List (String × String)) (acc : Option String),
      l.foldl (fun acc p => if g p then some p.1 else acc) acc =
        match ((l.filter g).map Prod.fst).getLast? with
        | some v => some v
        | none => acc := by
  intro l
  induction l with
  | nil => intro acc; rfl
  | cons p ps ih =>
      intro acc
      rw [List.foldl_cons]
      rw [ih]
      by_cases hg : g p = true
      · rw [if_pos hg, List.filter_cons_of_pos hg, List.map_cons, List.getLast?_cons]
        cases ((ps.filter g).map Prod.fst).getLast? <;> rfl
      · rw [if_neg (by simpa using hg), List.filter_cons_of_neg (by simpa using hg)]

/-- A feature with no positional id, no pre-existing id, and no name-map
hit passes through the extraction loop unchanged. -/
theorem stepFeature_fallback_none (pd : List (String × String)) (i : ℕ) (f : Feature)
    (hp : pd[i]? = none) (hid : f.id = none) (hpid : propStr f.properties "id" = none)
    (hn : nameToId pd (displayName f) = none) :
    stepFeature pd i f = f := by
  unfold stepFeature
  rw [hp]
  simp [jsFalsyS, hn, hid, hpid]

/-- A feature with no positional id whose display name hits the name map
(with a nonempty id) receives that id in the top-level slot and both
property keys. -/
theorem stepFeature_fallback_some (pd : List (String × String)) (i : ℕ) (f : Feature)
    (nid : String) (hp : pd[i]? = none) (hn : nameToId pd (displayName f) = some nid)
    (hne : nid ≠ "") :
    stepFeature pd i f =
      ⟨some nid, setProp (setProp f.properties "id" (.str nid)) "placemarkId" (.str nid)⟩ := by
  unfold stepFeature
  rw [hp]
  simp [jsFalsyS, hn, hne]

/-- Claim C3: a feature with no positional identifier resolves by looking
up its trimmed display name (read via the `name` then `Name` property
keys) in the name map built from the placemarks having both a name and an
identifier; the map keeps the *last* entry per name (later placemarks
overwrite earlier ones); and when the name has no entry, the feature's
identifier stays unset. -/
theorem c3_name_fallback :
    (∀ (pms : List Placemark) (k : ℕ) (f : Feature),
        (kmlFeatures pms)[k]? = some f →
        (placemarkData pms)[k]? = none →
        ((∀ nid, nameToId (placemarkData pms) (displayName f) = some nid →
            f.id = some nid) ∧
         (nameToId (placemarkData pms) (displayName f) = none → f.id = none))) ∧
    (∀ (pd : List (String × String)) (n : String),
        nameToId pd n =
          ((pd.filter (fun p => (p.2 != "") && (jsTrim p.2 == n))).map Prod.fst).getLast?) := by
  constructor
  · intro pms k f hf hpd
    have h1 : ((togeoFeatures pms)[k]?).map (stepFeature (placemarkData pms) k) = some f := by
      have ha := addIdsFrom_getElem? (placemarkData pms) (togeoFeatures pms) 0 k
      rw [Nat.zero_add] at ha
      rw [← ha]
      exact hf
    rcases h0 : (togeoFeatures pms)[k]? with _ | f0
    · rw [h0] at h1; cases h1
    · rw [h0] at h1
      replace h1 : stepFeature (placemarkData pms) k f0 = f := Option.some.inj h1
      obtain ⟨hid0, hpid0⟩ := togeo_shape pms k f0 h0
      rcases hres : nameToId (placemarkData pms) (displayName f0) with _ | nid
      · have hstep := stepFeature_fallback_none _ k f0 hpd hid0 hpid0 hres
        rw [hstep] at h1
        subst h1
        constructor
        · intro nid hnid
          rw [hres] at hnid
          cases hnid
        · intro _
          exact hid0
      · have hne : nid ≠ "" := nameToId_placemarkData_ne pms _ nid hres
        have hstep := stepFeature_fallback_some _ k f0 nid hpd hres hne
        rw [hstep] at h1
        have hdisp : displayName f = displayName f0 := by
          rw [← h1]
          exact displayName_after_write (some nid) f0.id f0.properties _ _
        constructor
        · intro nid2 hnid2
          rw [hdisp, hres] at hnid2
          injection hnid2 with he
          rw [← h1, ← he]
        · intro hnone
          rw [hdisp, hres] at hnone
          cases hnone
  · intro pd n
    unfold nameToId
    rw [foldl_overwrite]
    cases ((pd.filter (fun p => (p.2 != "") && (jsTrim p.2 == n))).map Prod.fst).getLast? <;>
      rfl

/-- Witness for C3 at concrete inputs: the name-sharing feature inherits
the id `"X"`, the unmatched one stays without an id, and on a name
collision the later placemark's id wins. -/
theorem c3_name_fallback_witness :
    c3FA.id = some "X" ∧ c3FB.id = none ∧
    nameToId [("A", "n"), ("B", "n")] "n" = some "B" :=
  ⟨(c3_name_fallback.1 c3PmsA 1 c3FA rfl rfl).1 "X" rfl,
   (c3_name_fallback.1 c3PmsB 1 c3FB rfl rfl).2 rfl,
   (c3_name_fallback.2 [("A", "n"), ("B", "n")] "n").trans rfl⟩
